import Mathlib

set_option autoImplicit false

namespace AgentLink

/-! Shallow embedding of the AgentLink repository (agent-to-agent state
protocol).  The backend data model and the `create_state` / `list_states`
endpoints are embedded from `src/backend/main.py.backup`; the dashboard
WebSocket client is embedded from the frontend `WebSocketClient` source.
The server-side claim coordinator, event-bus fan-out and notification
dispatcher are not present in the repository snapshot (only their CLI
callers, SQL migrations and READMEs are), so those operations are
modelled from the specification, as marked on each definition. -/

/-! ### Association-list store

The backend keeps states in a Python dict (`states_db`); a dict update on
an existing key replaces the value in place and a new key is appended at
the end, which is exactly the behaviour of `alistPut`. -/

def alistGet {α : Type} (k : String) : List (String × α) → Option α
  | [] => none
  | (k0, v) :: rest => if k0 = k then some v else alistGet k rest

def alistPut {α : Type} (k : String) (v : α) : List (String × α) → List (String × α)
  | [] => [(k, v)]
  | (k0, v0) :: rest => if k0 = k then (k0, v) :: rest else (k0, v0) :: alistPut k v rest

/-! ### Backend data model (pydantic schema in `main.py.backup`) -/

structure FileContext where
  path : String
  diff : Option String
  lines : Option (Int × Int)
  hash : Option String
deriving DecidableEq, Repr

structure GitContext where
  repo : String
  branch : String
  commit : String
deriving DecidableEq, Repr

structure ErrorContext where
  type : String
  message : String
  stack : Option String
deriving DecidableEq, Repr

structure Context where
  files : List FileContext
  git : Option GitContext
  errors : List ErrorContext
deriving DecidableEq, Repr

structure Knowledge where
  amem_ids : List String
  qmd_refs : List String
  external_urls : List String
deriving DecidableEq, Repr

structure Decision where
  what : String
  why : String
  when : Nat
deriving DecidableEq, Repr

structure WorkingMemory where
  hypotheses : List String
  open_questions : List String
  decisions : List Decision
  findings : List String
deriving DecidableEq, Repr

/-- Allowed task types: `Literal["bug_fix", "feature", "review", "research", "refactor"]`. -/
def taskTypes : List String := ["bug_fix", "feature", "review", "research", "refactor"]

/-- Allowed task statuses: `Literal["pending", "in_progress", "blocked", "done"]`. -/
def taskStatuses : List String := ["pending", "in_progress", "blocked", "done"]

structure Task where
  type : String
  description : String
  priority : Int
  status : String
deriving DecidableEq, Repr

structure Handoff where
  to_agent : Option String
  reason : Option String
  required_skills : List String
deriving DecidableEq, Repr

structure AgentState where
  id : String
  agent_id : String
  timestamp : Nat
  task : Task
  context : Context
  knowledge : Knowledge
  working_memory : WorkingMemory
  handoff : Option Handoff
deriving DecidableEq, Repr

abbrev DB := List (String × AgentState)

/-- Embeds the `POST /states` handler body from `main.py.backup`:
`states_db[state.id] = state` - an unconditional dict write under the
state's own id, with no duplicate check. -/
def create_state (state : AgentState) (db : DB) : DB :=
  alistPut state.id state db

/-! ### Request validation (pydantic `Task` model)

`Task.priority` carries `Field(ge=1, le=5)` and `type` / `status` are
`Literal` enumerations; FastAPI validates the request body against the
model before the handler runs, so an out-of-bounds request is rejected
with a validation error and `states_db` is never touched.  `status` has
the pydantic default `"pending"` when omitted. -/

def validTask (ty : String) (priority : Int) (status : String) : Bool :=
  taskTypes.contains ty && decide (1 ≤ priority) && decide (priority ≤ 5) &&
    taskStatuses.contains status

structure RawTask where
  type : String
  description : String
  priority : Int
  status : Option String
deriving DecidableEq, Repr

def parseTask (raw : RawTask) : Option Task :=
  let st := raw.status.getD "pending"
  if validTask raw.type raw.priority st then
    some ⟨raw.type, raw.description, raw.priority, st⟩
  else
    none

structure RawState where
  id : String
  agent_id : String
  timestamp : Nat
  task : RawTask
  context : Context
  knowledge : Knowledge
  working_memory : WorkingMemory
  handoff : Option Handoff
deriving DecidableEq, Repr

/-- The `POST /states` endpoint including the pydantic validation step:
on a validation failure the handler never runs, the store is returned
unchanged and no state is stored. -/
def createStateChecked (raw : RawState) (db : DB) : DB × Option AgentState :=
  match parseTask raw.task with
  | some t =>
      let s : AgentState :=
        ⟨raw.id, raw.agent_id, raw.timestamp, t, raw.context, raw.knowledge,
         raw.working_memory, raw.handoff⟩
      (create_state s db, some s)
  | none => (db, none)

/-! ### `GET /states` (`list_states` in `main.py.backup`)

Python semantics preserved: `if agent_id:` skips the filter for `None`
and for the empty string (both falsy), and `results[:limit]` is a Python
slice, so a negative `limit` drops `|limit|` elements from the end. -/

def pySlice {α : Type} (limit : Int) (xs : List α) : List α :=
  if 0 ≤ limit then xs.take limit.toNat else xs.take (xs.length - (-limit).toNat)

/-- The `if agent_id:` filter line - skipped when the parameter is
`None` or the (falsy) empty string. -/
def filterByAgent (agent_id : Option String) (xs : List AgentState) : List AgentState :=
  match agent_id with
  | some a => if a = "" then xs else xs.filter (fun s => s.agent_id == a)
  | none => xs

/-- The `if status:` filter line - skipped when the parameter is `None`
or the (falsy) empty string. -/
def filterByStatus (status : Option String) (xs : List AgentState) : List AgentState :=
  match status with
  | some st => if st = "" then xs else xs.filter (fun s => s.task.status == st)
  | none => xs

def list_states (db : DB) (agent_id status : Option String) (limit : Int) :
    List AgentState :=
  pySlice limit (filterByStatus status (filterByAgent agent_id (db.map (fun p => p.2))))

/-! ### Frontend `WebSocketClient` (dashboard WebSocket client source)

`handlers` is a JS `Set` of handler callbacks (modelled by handler ids
with set-semantics insert and delete), `subscriberCount` a plain counter.
`on(handler)` adds the handler and increments the counter, returning an
unsubscribe closure that deletes the handler, decrements the counter and
auto-disconnects when the counter hits zero while `this.ws` is set. -/

structure WSClient where
  handlers : List Nat
  subscriberCount : Int
  wsConn : Bool
  autoReconnect : Bool
deriving DecidableEq, Repr

def WSClient.disconnect (c : WSClient) : WSClient :=
  { c with autoReconnect := false, wsConn := false }

def WSClient.on (c : WSClient) (h : Nat) : WSClient :=
  { c with handlers := if c.handlers.contains h then c.handlers else h :: c.handlers,
           subscriberCount := c.subscriberCount + 1 }

def WSClient.unsub (c : WSClient) (h : Nat) : WSClient :=
  let c1 : WSClient :=
    { c with handlers := c.handlers.filter (fun x => x != h),
             subscriberCount := c.subscriberCount - 1 }
  if c1.subscriberCount == 0 && c.wsConn then c1.disconnect else c1

/-! ### Claim coordinator

The per-state claim columns are embedded from the Phase 5 migration
(`ALTER TABLE agent_states ADD COLUMN claimed_by / claimed_at /
claim_expires_at`, all nullable). -/

structure ClaimCols where
  claimed_by : Option String
  claimed_at : Option Nat
  claim_expires_at : Option Nat
deriving DecidableEq, Repr

abbrev CStore := List (String × ClaimCols)

inductive ClaimErr where
  | NotFound
  | Conflict (holder : String) (expires_at : Nat)
  | NotClaimed
  | Forbidden
deriving DecidableEq, Repr

/-- Modelled from the spec: a claim is observably expired once
`now ≥ expires_at` and readers must treat an expired claim as absent, so
the active claim of a record is its `(claimed_by, expires_at)` pair
exactly when both columns are set and `now < expires_at`. -/
def activeClaim (now : Nat) (r : ClaimCols) : Option (String × Nat) :=
  match r.claimed_by, r.claim_expires_at with
  | some b, some e => if now < e then some (b, e) else none
  | _, _ => none

/-- Modelled from the spec: the backend claim endpoint
(`POST /api/states/{id}/claim`) is not in the repository snapshot - only
its CLI caller `claimState` and the SQL migration are.  `acquire` fails
with `NotFound` on an unknown state, with `Conflict holder expires_at`
when a different agent holds an unexpired claim, and otherwise succeeds
(idempotently refreshing), setting all three claim columns with
`expires_at = now + duration`. -/
def acquire (now : Nat) (sid agent : String) (dur : Nat) (store : CStore) :
    Except ClaimErr (String × Nat) × CStore :=
  match alistGet sid store with
  | none => (Except.error ClaimErr.NotFound, store)
  | some r =>
    match activeClaim now r with
    | some (b, e) =>
        if b ≠ agent then (Except.error (ClaimErr.Conflict b e), store)
        else (Except.ok (agent, now + dur),
              alistPut sid ⟨some agent, some now, some (now + dur)⟩ store)
    | none => (Except.ok (agent, now + dur),
               alistPut sid ⟨some agent, some now, some (now + dur)⟩ store)

/-- Modelled from the spec: the backend release endpoint is not in the
repository snapshot.  `release` fails with `NotFound` on an unknown
state, `NotClaimed` when no active (unexpired) claim exists, `Forbidden`
when the active claim belongs to a different agent, and on success clears
all three claim columns entirely. -/
def release (now : Nat) (sid agent : String) (store : CStore) :
    Except ClaimErr Unit × CStore :=
  match alistGet sid store with
  | none => (Except.error ClaimErr.NotFound, store)
  | some r =>
    match activeClaim now r with
    | none => (Except.error ClaimErr.NotClaimed, store)
    | some (b, _) =>
        if b ≠ agent then (Except.error ClaimErr.Forbidden, store)
        else (Except.ok (), alistPut sid ⟨none, none, none⟩ store)

/-- Modelled from the spec: the backend extend endpoint is not in the
repository snapshot.  `extend` performs the same ownership checks as
`release`, additionally failing with `NotClaimed` when the claim is
absent or already expired, and on success recomputes
`expires_at = now + duration` (reset relative to the call, not added to
the previous expiry). -/
def extend (now : Nat) (sid agent : String) (dur : Nat) (store : CStore) :
    Except ClaimErr Nat × CStore :=
  match alistGet sid store with
  | none => (Except.error ClaimErr.NotFound, store)
  | some r =>
    match activeClaim now r with
    | none => (Except.error ClaimErr.NotClaimed, store)
    | some (b, _) =>
        if b ≠ agent then (Except.error ClaimErr.Forbidden, store)
        else (Except.ok (now + dur),
              alistPut sid ⟨r.claimed_by, r.claimed_at, some (now + dur)⟩ store)

/-- A record's claim columns are well-formed when they are all absent or
all present (naming the single owner `claimed_by`). -/
def ClaimCols.wfb (r : ClaimCols) : Bool :=
  (r.claimed_by.isSome && r.claimed_at.isSome && r.claim_expires_at.isSome) ||
  (r.claimed_by.isNone && r.claimed_at.isNone && r.claim_expires_at.isNone)

def wfStore (store : CStore) : Bool :=
  store.all (fun p => p.2.wfb)

/-! ### Event bus

Modelled from the spec: the WebSocket fan-out hub is not in the
repository snapshot (`main.py.backup` predates it and still carries the
`TODO: Handle subscriptions` echo stub); the event kinds and channels are
those of the frontend `WSMessage` types. -/

inductive BusEvent where
  | state_created (state_id from_agent : String)
  | handoff_received (state_id from_agent to_agent : String)
deriving DecidableEq, Repr

structure Subscriber where
  subId : Nat
  channel : String
deriving DecidableEq, Repr

/-- Modelled from the spec: an event is delivered to a subscriber on
channel `"all"` always, and to a subscriber on a specific agent channel
exactly when the event is a `handoff_received` whose `to_agent` equals
that channel. -/
def deliversTo (e : BusEvent) (ch : String) : Bool :=
  ch == "all" ||
    (match e with
     | BusEvent.handoff_received _ _ t => ch == t
     | BusEvent.state_created _ _ => false)

/-- Modelled from the spec: `publish` hands the event to every subscriber
whose channel matches it. -/
def publish (subs : List Subscriber) (e : BusEvent) : List Subscriber :=
  subs.filter (fun s => deliversTo e s.channel)

/-! ### Notification dispatcher

Modelled from the spec and the Matrix notifier README: `notifier.py`
itself is not in the repository snapshot - only its README (poll for
`status='pending'` and `notified_at IS NULL`, post, then mark
`notified_at=NOW()`) and the `migrate_matrix_notifier.sql` migration
adding `handoffs.notified_at` are. -/

structure HandoffItem where
  hid : Nat
  hasHandoff : Bool
  status : String
  notified_at : Option Nat
deriving DecidableEq, Repr

/-- An item is eligible for external notification when a handoff is
present, the task status is `pending` and `notified_at` is absent. -/
def eligible (i : HandoffItem) : Bool :=
  i.hasHandoff && i.status == "pending" && i.notified_at.isNone

structure TickResult where
  store : List HandoffItem
  attempted : List Nat
  delivered : List Nat
deriving DecidableEq, Repr

/-- Modelled from the spec: one dispatcher tick attempts delivery for
exactly the eligible items; a successful delivery (the `deliver` oracle
returns `true`) durably sets `notified_at := now`, a failed one leaves
the item untouched so the next tick retries it.  A failure on one item
does not stop the remaining items from being processed. -/
def tick (deliver : HandoffItem → Bool) (now : Nat) :
    List HandoffItem → TickResult
  | [] => ⟨[], [], []⟩
  | i :: rest =>
    let r := tick deliver now rest
    if eligible i then
      if deliver i then
        ⟨{ i with notified_at := some now } :: r.store, i.hid :: r.attempted,
         i.hid :: r.delivered⟩
      else
        ⟨i :: r.store, i.hid :: r.attempted, r.delivered⟩
    else
      ⟨i :: r.store, r.attempted, r.delivered⟩

/-! ### Helper lemmas about the association-list store -/

theorem alistGet_put_self {α : Type} (k : String) (v : α) (l : List (String × α)) :
    alistGet k (alistPut k v l) = some v := by
  induction l with
  | nil => simp [alistPut, alistGet]
  | cons p rest ih =>
    obtain ⟨k0, v0⟩ := p
    by_cases hk : k0 = k
    · simp [alistPut, hk, alistGet]
    · simp [alistPut, hk, alistGet, ih]

theorem alistGet_put_ne {α : Type} (k k' : String) (v : α) (l : List (String × α))
    (hk : k' ≠ k) : alistGet k' (alistPut k v l) = alistGet k' l := by
  induction l with
  | nil =>
    have h1 : k ≠ k' := Ne.symm hk
    simp [alistPut, alistGet, h1]
  | cons p rest ih =>
    obtain ⟨k0, v0⟩ := p
    by_cases h0 : k0 = k
    · simp [alistPut, h0, alistGet, Ne.symm hk]
    · by_cases h1 : k0 = k'
      · simp [alistPut, h0, alistGet, h1, hk]
      · simp [alistPut, h0, alistGet, h1, ih]

theorem alistPut_all {α : Type} (g : α → Bool) (k : String) (v : α)
    (l : List (String × α)) (hl : l.all (fun p => g p.2) = true) (hv : g v = true) :
    (alistPut k v l).all (fun p => g p.2) = true := by
  induction l with
  | nil => simp [alistPut, hv]
  | cons p rest ih =>
    obtain ⟨k0, v0⟩ := p
    simp only [List.all_cons, Bool.and_eq_true] at hl
    by_cases h0 : k0 = k
    · simp [alistPut, h0, hv, hl.2]
    · simp [alistPut, h0, hl.1, ih hl.2]

theorem alistGet_all {α : Type} (g : α → Bool) (k : String) (v : α)
    (l : List (String × α)) (hl : l.all (fun p => g p.2) = true)
    (hget : alistGet k l = some v) : g v = true := by
  induction l with
  | nil => simp [alistGet] at hget
  | cons p rest ih =>
    obtain ⟨k0, v0⟩ := p
    simp only [List.all_cons, Bool.and_eq_true] at hl
    by_cases h0 : k0 = k
    · simp [alistGet, h0] at hget
      simpa [← hget] using hl.1
    · simp [alistGet, h0] at hget
      exact ih hl.2 hget

/-! ### C7 - frontend unsubscribe is not idempotent -/

/-- A fresh client with an open socket and one registered handler. -/
def wsDemo : WSClient := WSClient.on ⟨[], 0, true, true⟩ 0

/-- C7 counterexample: with one registered handler, invoking the
unsubscribe closure a second time decrements `subscriberCount` to `-1`,
so the subscriber count is not identical to its value after the first
invocation. -/
theorem unsubscribe_twice_changes_count :
    (WSClient.unsub (WSClient.unsub wsDemo 0) 0).subscriberCount ≠
      (WSClient.unsub wsDemo 0).subscriberCount := by
  decide

theorem filter_bne_idem (h : Nat) (l : List Nat) :
    (l.filter (fun x => x != h)).filter (fun x => x != h) = l.filter (fun x => x != h) := by
  induction l with
  | nil => rfl
  | cons a rest ih =>
    by_cases ha : a = h
    · simp [ha, ih]
    · simp [List.filter_cons, ha, ih]

/-- C7 (amended): invoking the unsubscribe closure a second time leaves
the handler set unchanged but decrements the subscriber count again, so
the client state is not identical to its value after the first call. -/
theorem WSClient.unsub_eq_ite (c : WSClient) (h : Nat) :
    c.unsub h =
      (if (c.subscriberCount - 1 == 0 && c.wsConn) = true then
        WSClient.disconnect
          ⟨c.handlers.filter (fun x => x != h), c.subscriberCount - 1, c.wsConn, c.autoReconnect⟩
      else
        ⟨c.handlers.filter (fun x => x != h), c.subscriberCount - 1, c.wsConn, c.autoReconnect⟩) :=
  rfl

theorem unsubscribe_second_call_decrements (c : WSClient) (h : Nat) :
    ((c.unsub h).unsub h).handlers = (c.unsub h).handlers ∧
    ((c.unsub h).unsub h).subscriberCount = (c.unsub h).subscriberCount - 1 ∧
    (c.unsub h).unsub h ≠ c.unsub h := by
  have hcount : ∀ c' : WSClient, (c'.unsub h).subscriberCount = c'.subscriberCount - 1 := by
    intro c'
    rw [WSClient.unsub_eq_ite]
    split <;> simp [WSClient.disconnect]
  have hhandlers : ∀ c' : WSClient, (c'.unsub h).handlers = c'.handlers.filter (fun x => x != h) := by
    intro c'
    rw [WSClient.unsub_eq_ite]
    split <;> simp [WSClient.disconnect]
  refine ⟨?_, hcount _, ?_⟩
  · rw [hhandlers, hhandlers, filter_bne_idem]
  · intro heq
    have := congrArg WSClient.subscriberCount heq
    rw [hcount] at this
    omega

/-! ### C8 - state ids: `create_state` replaces a record under a reused id -/

def taskReview : Task := ⟨"review", "architecture review", 3, "pending"⟩

def emptyContext : Context := ⟨[], none, []⟩

def emptyKnowledge : Knowledge := ⟨[], [], []⟩

def emptyMemory : WorkingMemory := ⟨[], [], [], []⟩

def stateCastiel : AgentState :=
  ⟨"dup", "castiel", 0, taskReview, emptyContext, emptyKnowledge, emptyMemory, none⟩

def stateLilith : AgentState :=
  { stateCastiel with agent_id := "lilith" }

/-- C8 counterexample: two `create_state` calls carrying the same id
`"dup"` (the endpoint accepts a caller-supplied id and performs no
duplicate check): the second call replaces the record stored by the
first, so ids of stored records are not unique across successful calls. -/
theorem create_state_replaces_reused_id :
    alistGet "dup" (create_state stateCastiel []) = some stateCastiel ∧
    alistGet "dup" (create_state stateLilith (create_state stateCastiel [])) =
      some stateLilith ∧
    stateLilith ≠ stateCastiel := by
  refine ⟨rfl, rfl, ?_⟩
  decide

/-- C8 (amended): `create_state` stores the record under its own id;
records under other ids are untouched, so two calls with distinct ids
both keep their records, but a call reusing an existing id replaces that
record rather than being rejected; every stored record is kept under its
own id and no operation rebinds it. -/
theorem create_state_id_semantics (db : DB) (s : AgentState)
    (hids : ∀ k v, alistGet k db = some v → v.id = k) :
    alistGet s.id (create_state s db) = some s ∧
    (∀ k, k ≠ s.id → alistGet k (create_state s db) = alistGet k db) ∧
    (∀ k v, alistGet k (create_state s db) = some v → v.id = k) := by
  refine ⟨alistGet_put_self _ _ _, ?_, ?_⟩
  · intro k hk
    exact alistGet_put_ne _ _ _ _ hk
  · intro k v hget
    by_cases hk : k = s.id
    · subst hk
      rw [create_state, alistGet_put_self] at hget
      cases hget
      rfl
    · rw [create_state, alistGet_put_ne _ _ _ _ hk] at hget
      exact hids k v hget

/-- C8 amended-theorem witness at a concrete input: the empty store
satisfies the key-consistency hypothesis vacuously. -/
theorem create_state_id_semantics_witness :
    alistGet "dup" (create_state stateCastiel []) = some stateCastiel ∧
    (∀ k, k ≠ "dup" → alistGet k (create_state stateCastiel []) = alistGet k []) ∧
    (∀ k v, alistGet k (create_state stateCastiel []) = some v → v.id = k) :=
  create_state_id_semantics [] stateCastiel (by intro k v hv; simp [alistGet] at hv)

/-! ### C9 - task validation on `create_state` -/

/-- C9: a raw request is accepted exactly when `task.type` is one of the
five enumerated types, `task.priority` lies in `[1,5]` and the (possibly
defaulted) `task.status` is one of the four enumerated statuses; a
request outside these bounds is rejected with a validation error and the
store is unchanged (no state is stored). -/
theorem validTask_iff (ty : String) (p : Int) (st : String) :
    validTask ty p st = true ↔
      (ty ∈ taskTypes ∧ 1 ≤ p ∧ p ≤ 5 ∧ st ∈ taskStatuses) := by
  simp [validTask, List.contains, List.elem_iff, and_assoc]

theorem create_state_validation (raw : RawState) (db : DB) :
    ((parseTask raw.task).isSome ↔
      (raw.task.type ∈ taskTypes ∧ 1 ≤ raw.task.priority ∧ raw.task.priority ≤ 5 ∧
        (raw.task.status.getD "pending") ∈ taskStatuses)) ∧
    (parseTask raw.task = none → createStateChecked raw db = (db, none)) := by
  constructor
  · simp only [parseTask]
    split
    · rename_i hcond
      rw [validTask_iff] at hcond
      simp [hcond]
    · rename_i hcond
      rw [validTask_iff] at hcond
      simp [hcond]
  · intro hnone
    simp [createStateChecked, hnone]

/-- A raw request whose priority 6 is out of bounds. -/
def rawBadPriority : RawState :=
  ⟨"id1", "castiel", 0, ⟨"review", "priority out of range", 6, some "pending"⟩,
   emptyContext, emptyKnowledge, emptyMemory, none⟩

/-- C9 witness: the out-of-bounds request is rejected and leaves the
empty store unchanged. -/
theorem create_state_validation_witness :
    createStateChecked rawBadPriority [] = ([], none) :=
  (create_state_validation rawBadPriority []).2 rfl

/-! ### C10 - `list_states` limit and filters -/

theorem pySlice_subset {α : Type} (limit : Int) (xs : List α) :
    pySlice limit xs ⊆ xs := by
  unfold pySlice
  split <;> exact List.take_subset _ _

theorem pySlice_length_le {α : Type} (limit : Int) (xs : List α) (h : 0 ≤ limit) :
    ((pySlice limit xs).length : Int) ≤ limit := by
  unfold pySlice
  rw [if_pos h]
  have h1 : (xs.take limit.toNat).length ≤ limit.toNat := List.length_take_le limit.toNat xs
  omega

theorem filterByAgent_subset (agent_id : Option String) (xs : List AgentState) :
    filterByAgent agent_id xs ⊆ xs := by
  cases agent_id with
  | none => exact fun s hs => hs
  | some a =>
    simp only [filterByAgent]
    split
    · exact fun s hs => hs
    · exact fun s hs => (List.mem_filter.mp hs).1

theorem mem_filterByAgent (a : String) (ha : a ≠ "") (xs : List AgentState)
    (s : AgentState) (h : s ∈ filterByAgent (some a) xs) : s.agent_id = a := by
  simp only [filterByAgent, if_neg ha] at h
  simpa using (List.mem_filter.mp h).2

theorem mem_filterByStatus (t : String) (ht : t ≠ "") (xs : List AgentState)
    (s : AgentState) (h : s ∈ filterByStatus (some t) xs) : s.task.status = t := by
  simp only [filterByStatus, if_neg ht] at h
  simpa using (List.mem_filter.mp h).2

theorem filterByStatus_subset (status : Option String) (xs : List AgentState) :
    filterByStatus status xs ⊆ xs := by
  cases status with
  | none => exact fun s hs => hs
  | some t =>
    simp only [filterByStatus]
    split
    · exact fun s hs => hs
    · exact fun s hs => (List.mem_filter.mp hs).1

/-- C10 counterexample: with a negative `limit` the Python slice
`results[:limit]` drops from the end, so the result can never have "at
most `limit`" records; and an empty-string `agent_id` filter is falsy in
Python, so it is skipped and a record with a different (non-empty)
`agent_id` is returned. -/
theorem list_states_counterexample :
    ¬ (((list_states [("dup", stateCastiel)] none none (-1)).length : Int) ≤ -1) ∧
    stateCastiel ∈ list_states [("dup", stateCastiel)] (some "") none 100 ∧
    stateCastiel.agent_id ≠ "" := by
  decide

/-- C10 (amended): for every non-negative `limit` (the endpoint default
is 100) `list_states` returns at most `limit` records, and whenever a
non-empty `agent_id` or `status` filter is supplied every returned record
matches it; an empty-string filter is falsy in Python and is skipped, and
a negative `limit` instead drops `|limit|` records from the end. -/
theorem list_states_bounds (db : DB) (aid st : Option String) (limit : Int)
    (s : AgentState) :
    (0 ≤ limit → ((list_states db aid st limit).length : Int) ≤ limit) ∧
    (∀ a, aid = some a → a ≠ "" → s ∈ list_states db aid st limit → s.agent_id = a) ∧
    (∀ t, st = some t → t ≠ "" → s ∈ list_states db aid st limit → s.task.status = t) := by
  refine ⟨?_, ?_, ?_⟩
  · intro hlim
    exact pySlice_length_le _ _ hlim
  · intro a ha hne hmem
    subst ha
    have h1 := pySlice_subset _ _ hmem
    have h2 := filterByStatus_subset _ _ h1
    exact mem_filterByAgent a hne _ s h2
  · intro t ht hne hmem
    subst ht
    have h1 := pySlice_subset _ _ hmem
    exact mem_filterByStatus t hne _ s h1

/-- C10 amended-theorem witness on a concrete store with both filters
supplied and the default limit 100. -/
theorem list_states_bounds_witness :
    ((list_states [("dup", stateCastiel)] (some "castiel") (some "pending") 100).length : Int) ≤ 100 ∧
    stateCastiel.agent_id = "castiel" ∧ stateCastiel.task.status = "pending" :=
  ⟨(list_states_bounds [("dup", stateCastiel)] (some "castiel") (some "pending") 100 stateCastiel).1
      (by decide),
   (list_states_bounds [("dup", stateCastiel)] (some "castiel") (some "pending") 100 stateCastiel).2.1
      "castiel" rfl (by decide) (by decide),
   (list_states_bounds [("dup", stateCastiel)] (some "castiel") (some "pending") 100 stateCastiel).2.2
      "pending" rfl (by decide) (by decide)⟩

/-! ### Claim coordinator lemmas (C1-C4) -/

theorem activeClaim_some_iff (now : Nat) (r : ClaimCols) (b : String) (e : Nat) :
    activeClaim now r = some (b, e) ↔
      (r.claimed_by = some b ∧ r.claim_expires_at = some e ∧ now < e) := by
  unfold activeClaim
  cases hb : r.claimed_by with
  | none => simp
  | some b0 =>
    cases he : r.claim_expires_at with
    | none => simp
    | some e0 =>
      by_cases hlt : now < e0
      · simp only [if_pos hlt, Option.some_inj, Prod.mk.injEq]
        constructor
        · rintro ⟨rfl, rfl⟩
          exact ⟨rfl, rfl, hlt⟩
        · rintro ⟨h1, h2, _⟩
          exact ⟨h1, h2⟩
      · simp only [if_neg hlt]
        constructor
        · intro hfalse
          cases hfalse
        · rintro ⟨h1, h2, h3⟩
          cases h2
          exact absurd h3 hlt

theorem activeClaim_none_iff (now : Nat) (r : ClaimCols) :
    activeClaim now r = none ↔
      (r.claimed_by = none ∨ r.claim_expires_at = none ∨
        ∃ e, r.claim_expires_at = some e ∧ e ≤ now) := by
  unfold activeClaim
  cases hb : r.claimed_by with
  | none => simp
  | some b0 =>
    cases he : r.claim_expires_at with
    | none => simp
    | some e0 =>
      by_cases hlt : now < e0
      · simp only [if_pos hlt]
        constructor
        · intro hfalse
          cases hfalse
        · rintro (h1 | h2 | ⟨e1, he1, hle⟩)
          · cases h1
          · cases h2
          · injection he1 with he1
            exact absurd hlt (by omega)
      · simp only [if_neg hlt]
        constructor
        · intro _
          exact Or.inr (Or.inr ⟨e0, rfl, by omega⟩)
        · intro _
          trivial

/-- C1: the claim columns of a state record are either all absent or all
present naming the single owner, and every acquire, release and extend
keeps every record of the store in that shape. -/
theorem claim_ops_preserve_single_owner (now : Nat) (sid agent : String) (dur : Nat)
    (store : CStore) (h : wfStore store = true) :
    wfStore (acquire now sid agent dur store).2 = true ∧
    wfStore (release now sid agent store).2 = true ∧
    wfStore (extend now sid agent dur store).2 = true := by
  refine ⟨?_, ?_, ?_⟩
  · cases hget : alistGet sid store with
    | none => simpa [acquire, hget] using h
    | some r =>
      cases hact : activeClaim now r with
      | none =>
        simp only [acquire, hget, hact]
        exact alistPut_all _ _ _ _ h rfl
      | some be =>
        obtain ⟨b, e⟩ := be
        simp only [acquire, hget, hact]
        split
        · exact h
        · exact alistPut_all _ _ _ _ h rfl
  · cases hget : alistGet sid store with
    | none => simpa [release, hget] using h
    | some r =>
      cases hact : activeClaim now r with
      | none => simpa [release, hget, hact] using h
      | some be =>
        obtain ⟨b, e⟩ := be
        simp only [release, hget, hact]
        split
        · exact h
        · exact alistPut_all _ _ _ _ h rfl
  · cases hget : alistGet sid store with
    | none => simpa [extend, hget] using h
    | some r =>
      cases hact : activeClaim now r with
      | none => simpa [extend, hget, hact] using h
      | some be =>
        obtain ⟨b, e⟩ := be
        simp only [extend, hget, hact]
        split
        · exact h
        · have hr : r.wfb = true := alistGet_all _ _ _ _ h hget
          rcases (activeClaim_some_iff now r b e).mp hact with ⟨hb1, hb2, _⟩
          apply alistPut_all _ _ _ _ h
          have hat : r.claimed_at.isSome = true := by
            simpa [ClaimCols.wfb, hb1, hb2] using hr
          simp [ClaimCols.wfb, hb1, hat]

/-- A store with one state claimed by agent A until instant 30. -/
def claimA : ClaimCols := ⟨some "A", some 0, some 30⟩

def cstoreS1 : CStore := [("S1", claimA)]

/-- C1 witness: the singleton store is well-formed and stays so under
all three operations. -/
theorem claim_ops_preserve_single_owner_witness :
    wfStore cstoreS1 = true ∧
    (wfStore (acquire 5 "S1" "A" 45 cstoreS1).2 = true ∧
     wfStore (release 5 "S1" "A" cstoreS1).2 = true ∧
     wfStore (extend 5 "S1" "A" 45 cstoreS1).2 = true) :=
  ⟨rfl, claim_ops_preserve_single_owner 5 "S1" "A" 45 cstoreS1 rfl⟩

/-- C2: `acquire` fails with `Conflict`, reporting the holder and its
expiry, exactly when a different agent holds a claim whose expiry is
still in the future; once the expiry has passed, an acquire by the other
agent succeeds with a fresh `expires_at = now + duration`. -/
theorem acquire_conflict_iff (now now2 : Nat) (sid agent : String) (dur : Nat)
    (store : CStore) (r : ClaimCols) (hget : alistGet sid store = some r) :
    (∀ b e, (acquire now sid agent dur store).1 = Except.error (ClaimErr.Conflict b e) ↔
      (r.claimed_by = some b ∧ r.claim_expires_at = some e ∧ b ≠ agent ∧ now < e)) ∧
    (∀ e, r.claim_expires_at = some e → e ≤ now2 →
      (acquire now2 sid agent dur store).1 = Except.ok (agent, now2 + dur)) := by
  constructor
  · intro b e
    cases hact : activeClaim now r with
    | none =>
      rw [activeClaim_none_iff] at hact
      simp only [acquire, hget]
      rw [(activeClaim_none_iff now r).mpr hact]
      constructor
      · intro hcontra
        cases hcontra
      · rintro ⟨h1, h2, _, h4⟩
        rcases hact with hb | he | ⟨e0, he0, hle⟩
        · rw [h1] at hb; cases hb
        · rw [h2] at he; cases he
        · rw [h2] at he0
          cases he0
          omega
    | some be =>
      obtain ⟨b0, e0⟩ := be
      rcases (activeClaim_some_iff now r b0 e0).mp hact with ⟨hb0, he0, hlt0⟩
      simp only [acquire, hget, hact]
      by_cases hne : b0 ≠ agent
      · rw [if_pos hne]
        constructor
        · intro hc
          have hc2 : ClaimErr.Conflict b0 e0 = ClaimErr.Conflict b e := by
            cases hc; rfl
          cases hc2
          exact ⟨hb0, he0, hne, hlt0⟩
        · rintro ⟨h1, h2, h3, h4⟩
          rw [hb0] at h1
          injection h1 with h1
          rw [he0] at h2
          injection h2 with h2
          rw [h1, h2]
      · rw [if_neg hne]
        push_neg at hne
        constructor
        · intro hc
          cases hc
        · rintro ⟨h1, h2, h3, h4⟩
          rw [hb0] at h1
          injection h1 with h1
          exact absurd (h1 ▸ hne) h3
  · intro e he hle
    cases hact : activeClaim now2 r with
    | none => simp [acquire, hget, hact]
    | some be =>
      obtain ⟨b0, e0⟩ := be
      rcases (activeClaim_some_iff now2 r b0 e0).mp hact with ⟨hb0, he0, hlt0⟩
      rw [he] at he0
      injection he0 with he0
      omega

/-- C2 witness, the spec scenario in minutes: agent A holds S1 with
expiry 30; agent B at instant 5 receives `Conflict "A" 30`, and agent B
at instant 31 acquires successfully. -/
theorem acquire_conflict_iff_witness :
    (∀ b e, (acquire 5 "S1" "B" 30 cstoreS1).1 = Except.error (ClaimErr.Conflict b e) ↔
      (claimA.claimed_by = some b ∧ claimA.claim_expires_at = some e ∧ b ≠ "B" ∧ 5 < e)) ∧
    (∀ e, claimA.claim_expires_at = some e → e ≤ 31 →
      (acquire 31 "S1" "B" 30 cstoreS1).1 = Except.ok ("B", 31 + 30)) :=
  acquire_conflict_iff 5 31 "S1" "B" 30 cstoreS1 claimA rfl

/-- C3: when the active claim belongs to a different agent, `release`
fails with `Forbidden` and leaves the store (hence the claim) unchanged;
when the caller owns the active claim, `release` succeeds and stores the
record with all three claim columns absent. -/
theorem release_ownership (now : Nat) (sid agent : String) (store : CStore)
    (r : ClaimCols) (b : String) (e : Nat) (hget : alistGet sid store = some r)
    (hact : activeClaim now r = some (b, e)) :
    (b ≠ agent → release now sid agent store = (Except.error ClaimErr.Forbidden, store)) ∧
    (b = agent → (release now sid agent store).1 = Except.ok () ∧
      alistGet sid (release now sid agent store).2 = some ⟨none, none, none⟩) := by
  constructor
  · intro hne
    simp only [release, hget, hact]
    rw [if_pos hne]
  · intro heq
    subst heq
    simp only [release, hget, hact]
    rw [if_neg (by simp)]
    exact ⟨rfl, alistGet_put_self _ _ _⟩

/-- C3 witness: agent B's release of A's claim is `Forbidden` and leaves
the store unchanged; agent A's release succeeds and clears all claim
columns. -/
theorem release_ownership_witness :
    release 5 "S1" "B" cstoreS1 = (Except.error ClaimErr.Forbidden, cstoreS1) ∧
    ((release 5 "S1" "A" cstoreS1).1 = Except.ok () ∧
      alistGet "S1" (release 5 "S1" "A" cstoreS1).2 = some ⟨none, none, none⟩) :=
  ⟨(release_ownership 5 "S1" "B" cstoreS1 claimA "A" 30 rfl rfl).1 (by decide),
   (release_ownership 5 "S1" "A" cstoreS1 claimA "A" 30 rfl rfl).2 rfl⟩

/-- C4: `extend` fails with `NotClaimed` - leaving the store unchanged,
never resurrecting the claim - whenever the claim is absent or its
expiry has passed; on success (the caller owns an unexpired claim) it
returns and stores `expires_at = now + duration`, reset from the moment
of the call rather than added to the previous expiry. -/
theorem extend_expiry_rules (now : Nat) (sid agent : String) (dur : Nat)
    (store : CStore) (r : ClaimCols) (hget : alistGet sid store = some r) :
    ((r.claimed_by = none ∨ r.claim_expires_at = none ∨
        (∃ e, r.claim_expires_at = some e ∧ e ≤ now)) →
      extend now sid agent dur store = (Except.error ClaimErr.NotClaimed, store)) ∧
    (∀ e, r.claimed_by = some agent → r.claim_expires_at = some e → now < e →
      ((extend now sid agent dur store).1 = Except.ok (now + dur) ∧
        ∃ r2, alistGet sid (extend now sid agent dur store).2 = some r2 ∧
          r2.claim_expires_at = some (now + dur))) := by
  constructor
  · intro habs
    have hact : activeClaim now r = none := (activeClaim_none_iff now r).mpr habs
    simp [extend, hget, hact]
  · intro e hb he hlt
    have hact : activeClaim now r = some (agent, e) :=
      (activeClaim_some_iff now r agent e).mpr ⟨hb, he, hlt⟩
    simp only [extend, hget, hact]
    rw [if_neg (by simp)]
    exact ⟨rfl, ⟨r.claimed_by, r.claimed_at, some (now + dur)⟩,
           alistGet_put_self _ _ _, rfl⟩

/-- C4 witness: at instant 31 the claim with expiry 30 is expired, so
`extend` returns `NotClaimed` and the store is unchanged; at instant 5
the owner's extend succeeds with expiry 5 + 45 (not 30 + 45). -/
theorem extend_expiry_rules_witness :
    extend 31 "S1" "A" 45 cstoreS1 = (Except.error ClaimErr.NotClaimed, cstoreS1) ∧
    ((extend 5 "S1" "A" 45 cstoreS1).1 = Except.ok (5 + 45) ∧
      ∃ r2, alistGet "S1" (extend 5 "S1" "A" 45 cstoreS1).2 = some r2 ∧
        r2.claim_expires_at = some (5 + 45)) :=
  ⟨(extend_expiry_rules 31 "S1" "A" 45 cstoreS1 claimA rfl).1
      (Or.inr (Or.inr ⟨30, rfl, by decide⟩)),
   (extend_expiry_rules 5 "S1" "A" 45 cstoreS1 claimA rfl).2 30 rfl rfl (by decide)⟩

/-! ### C5 - notification dispatcher -/

theorem tick_store_map (d : HandoffItem → Bool) (now : Nat) (store : List HandoffItem) :
    (tick d now store).store =
      store.map (fun i => if eligible i && d i then { i with notified_at := some now } else i) := by
  induction store with
  | nil => rfl
  | cons i rest ih =>
    by_cases he : eligible i = true
    · by_cases hd : d i = true
      · simp [tick, he, hd, ih]
      · simp [tick, he, hd, ih]
    · simp [tick, he, ih]

theorem tick_attempted (d : HandoffItem → Bool) (now : Nat) (store : List HandoffItem) :
    (tick d now store).attempted = (store.filter eligible).map HandoffItem.hid := by
  induction store with
  | nil => rfl
  | cons i rest ih =>
    by_cases he : eligible i = true
    · by_cases hd : d i = true
      · simp [tick, he, hd, ih, List.filter_cons]
      · simp [tick, he, hd, ih, List.filter_cons]
    · simp [tick, he, ih, List.filter_cons]

/-- C5: a dispatcher tick attempts delivery for exactly the items with a
handoff present, status `pending` and `notified_at` absent; with every
delivery succeeding it delivers exactly those items and a second tick
over the resulting store delivers nothing (each delivered item had
`notified_at` set); with a delivery failing, `notified_at` stays absent
(the store is unchanged) so the items are retried on the next tick. -/
theorem dispatcher_tick_spec (d d2 : HandoffItem → Bool) (now now2 : Nat)
    (store : List HandoffItem) :
    (tick d now store).attempted = (store.filter eligible).map HandoffItem.hid ∧
    (tick (fun _ => true) now store).delivered =
      (store.filter eligible).map HandoffItem.hid ∧
    (tick d2 now2 (tick (fun _ => true) now store).store).attempted = [] ∧
    ((tick (fun _ => false) now store).store = store ∧
      (tick d2 now2 (tick (fun _ => false) now store).store).attempted =
        (store.filter eligible).map HandoffItem.hid) := by
  refine ⟨tick_attempted d now store, ?_, ?_, ?_, ?_⟩
  · induction store with
    | nil => rfl
    | cons i rest ih =>
      by_cases he : eligible i = true
      · simp [tick, he, ih, List.filter_cons]
      · simp [tick, he, ih, List.filter_cons]
  · rw [tick_attempted, tick_store_map]
    have hfil : (store.map
        (fun i => if eligible i && (fun _ : HandoffItem => true) i then
          { i with notified_at := some now } else i)).filter eligible = [] := by
      apply List.filter_eq_nil_iff.mpr
      intro j hj
      rcases List.mem_map.mp hj with ⟨i, _, rfl⟩
      by_cases he : eligible i = true
      · rw [if_pos (by simp [he])]
        simp [eligible]
      · rw [if_neg (by simp [he])]
        exact he
    rw [hfil]
    rfl
  · rw [tick_store_map]
    simp
  · rw [tick_store_map]
    simp [tick_attempted]

/-! ### C6 - event bus fan-out -/

/-- C6: every subscriber on channel `"all"` receives every published
event; a subscriber on a specific agent channel receives exactly the
`handoff_received` events addressed to that channel - never
`state_created` events and never handoffs addressed to other agents. -/
theorem publish_fanout (subs : List Subscriber) (e : BusEvent) (s : Subscriber)
    (hs : s ∈ subs) :
    (s.channel = "all" → s ∈ publish subs e) ∧
    (s.channel ≠ "all" →
      (s ∈ publish subs e ↔ ∃ sid fr, e = BusEvent.handoff_received sid fr s.channel)) := by
  constructor
  · intro hall
    apply List.mem_filter.mpr
    exact ⟨hs, by simp [deliversTo, hall]⟩
  · intro hne
    constructor
    · intro hmem
      have hd := (List.mem_filter.mp hmem).2
      cases e with
      | state_created a b =>
        simp [deliversTo, hne] at hd
      | handoff_received a b t =>
        simp [deliversTo, hne] at hd
        exact ⟨a, b, by rw [hd]⟩
    · rintro ⟨sid, fr, rfl⟩
      apply List.mem_filter.mpr
      exact ⟨hs, by simp [deliversTo]⟩

def subsDemo : List Subscriber := [⟨0, "all"⟩, ⟨1, "castiel"⟩]

def evDemo : BusEvent := BusEvent.handoff_received "s1" "local-claude" "castiel"

/-- C6 witness: on a concrete bus with an `"all"` subscriber and a
`"castiel"` subscriber, a handoff addressed to castiel reaches both, and
the castiel subscriber's deliveries are characterised by the matching
`to_agent`. -/
theorem publish_fanout_witness :
    (⟨0, "all"⟩ : Subscriber) ∈ publish subsDemo evDemo ∧
    ((⟨1, "castiel"⟩ : Subscriber) ∈ publish subsDemo evDemo ↔
      ∃ sid fr, evDemo = BusEvent.handoff_received sid fr "castiel") :=
  ⟨(publish_fanout subsDemo evDemo ⟨0, "all"⟩ (by decide)).1 rfl,
   (publish_fanout subsDemo evDemo ⟨1, "castiel"⟩ (by decide)).2 (by decide)⟩

end AgentLink
